import Mathlib

/-
Verification of the generichandler package (Isnor/generichandler): a shallow
embedding of src/generichandler.go into Lean 4, together with theorems that
settle the specification claims about the request-handling pipeline
(decode, validate, invoke, encode).

Modelling conventions:
  - Go pointers (`*T`) are modelled as `Option T` (`none` = nil).
  - `context.Context` is an opaque token (`Ctx := Nat`), passed through unchanged.
  - Go `error` values are `GoError`: a message plus the sentinel they wrap,
    which models `errors.Is` against the package sentinels.
  - JSON bytes are modelled one level up, as structured JSON values (`JValue`);
    `renderJValue` gives the concrete byte string, with the escaping rules of
    Go encoding/json (HTML escaping on, as json.NewEncoder defaults to).
  - `http.ResponseWriter` is a status plus the list of JSON chunks written;
    `WriteHeader` after the first set is a no-op and a write with no status
    set commits the implicit 200, as in net/http.
  - a Go panic (nil-pointer dereference inside a Validate call) is modelled by
    the `crash` outcome, recorded in the handler result.
-/

namespace GenericHandler

/-- Go context.Context, passed through the pipeline unchanged; modelled as an
opaque token. -/
abbrev Ctx := Nat

/-- The sentinel errors declared in generichandler.go:
`ErrorInvalidRequest = errors.New("invalid request")` and
`ErrorNotFound = errors.New("no data found")`. -/
inductive Sentinel
  | invalidRequest
  | notFound
deriving DecidableEq

/-- A Go error value: its message (`err.Error()`) together with the package
sentinel it is or wraps, if any; `base` is what `errors.Is` matches against. -/
structure GoError where
  msg : String
  base : Option Sentinel := none
deriving DecidableEq

/-- Models `errors.WithMessage(err, m)` from github.com/pkg/errors: the message
is prefixed with `m ++ ": "` and the wrapped sentinel chain is preserved. -/
def GoError.withMessage (e : GoError) (m : String) : GoError :=
  { msg := m ++ ": " ++ e.msg, base := e.base }

/-- `ErrorInvalidRequest = errors.New("invalid request")` (generichandler.go line 19). -/
def ErrorInvalidRequest : GoError := { msg := "invalid request", base := some .invalidRequest }

/-- `ErrorNotFound = errors.New("no data found")` (generichandler.go line 20). -/
def ErrorNotFound : GoError := { msg := "no data found", base := some .notFound }

mutual

/-- A JSON value, the unit written by `json.NewEncoder(w).Encode(v)`; models the
bytes one level up from the wire (numbers restricted to naturals, which covers
every value this package's types produce). -/
inductive JValue
  | str (s : String)
  | num (n : Nat)
  | obj (fields : JFields)

/-- The field list of a JSON object. -/
inductive JFields
  | nil
  | cons (key : String) (val : JValue) (rest : JFields)

end

/-- A hexadecimal digit character, lowercase, as Go encoding/json prints in
`\u00XX` escapes. -/
def hexDigit (n : Nat) : Char :=
  if n < 10 then Char.ofNat (48 + n) else Char.ofNat (87 + n)

/-- Go encoding/json string escaping for one character (HTML escaping on, the
json.NewEncoder default): quote, backslash, the HTML characters and U+2028/29
as escapes, control characters as \u00XX, everything else verbatim. -/
def jsonEscapeChar (c : Char) : String :=
  if c = '"' then "\\\""
  else if c = '\\' then "\\\\"
  else if c = '\n' then "\\n"
  else if c = '\r' then "\\r"
  else if c = '\t' then "\\t"
  else if c = '<' then "\\u003c"
  else if c = '>' then "\\u003e"
  else if c = '&' then "\\u0026"
  else if c.toNat = 0x2028 then "\\u2028"
  else if c.toNat = 0x2029 then "\\u2029"
  else if c.toNat < 32 then
    "\\u00" ++ String.singleton (hexDigit (c.toNat / 16)) ++ String.singleton (hexDigit (c.toNat % 16))
  else String.singleton c

/-- True when Go encoding/json writes the character into a JSON string
unchanged. -/
def jsonSafeChar (c : Char) : Bool :=
  32 ≤ c.toNat && !(c = '"') && !(c = '\\') && !(c = '<') && !(c = '>') && !(c = '&')
    && !(c.toNat = 0x2028) && !(c.toNat = 0x2029)

/-- Escape a character list per `jsonEscapeChar`. -/
def escapeList : List Char → String
  | [] => ""
  | c :: cs => jsonEscapeChar c ++ escapeList cs

/-- The JSON string literal for `s`: quotes around the escaped characters. -/
def jsonQuote (s : String) : String := "\"" ++ escapeList s.data ++ "\""

mutual

/-- The byte string Go encoding/json produces for a JSON value. -/
def renderJValue : JValue → String
  | .str s => jsonQuote s
  | .num n => toString n
  | .obj fs => "\x7b" ++ renderFields fs ++ "\x7d"

/-- The byte string for an object's fields, comma separated. -/
def renderFields : JFields → String
  | .nil => ""
  | .cons k v .nil => jsonQuote k ++ ":" ++ renderJValue v
  | .cons k v (.cons k2 v2 rest) =>
      jsonQuote k ++ ":" ++ renderJValue v ++ "," ++ renderFields (.cons k2 v2 rest)

end

/-- The last binding of `key` in a field list; models encoding/json unmarshal,
where a later duplicate key overwrites an earlier one. -/
def JFields.lookupLast (fs : JFields) (key : String) : Option JValue :=
  match fs with
  | .nil => none
  | .cons k v rest =>
    match rest.lookupLast key with
    | some r => some r
    | none => if k = key then some v else none

/-- The raw body of an HTTP request, as the JSON decoder sees it: either bytes
that parse as a JSON value, or malformed bytes abstracted by the decode error
they produce. -/
inductive RawBody
  | json (j : JValue)
  | malformed (e : GoError)

/-- An `*http.Request` as this package consumes it: an optional raw body
(`none` models `r.Body == nil`) and the ambient context `r.Context()`. -/
structure HTTPRequest where
  body : Option RawBody
  ctx : Ctx

/-- An `http.ResponseWriter`: the status committed so far (if any) and the JSON
chunks written to the body, in order. -/
structure ResponseWriter where
  status : Option Nat
  chunks : List JValue

/-- A fresh response writer, before the handler runs. -/
def ResponseWriter.empty : ResponseWriter := { status := none, chunks := [] }

/-- `w.WriteHeader(code)`: commits the status; a second call is superfluous and
ignored, as in net/http. -/
def ResponseWriter.writeHeader (w : ResponseWriter) (code : Nat) : ResponseWriter :=
  match w.status with
  | none => { w with status := some code }
  | some _ => w

/-- A body write (one `Encode` call): commits the implicit 200 if no status was
set, and appends the chunk. -/
def ResponseWriter.write (w : ResponseWriter) (j : JValue) : ResponseWriter :=
  { status := some (w.status.getD 200), chunks := w.chunks ++ [j] }

/-- The body bytes of a writer: each chunk rendered, followed by the newline
`json.Encoder.Encode` appends. -/
def bodyString : List JValue → String
  | [] => ""
  | j :: rest => renderJValue j ++ "\n" ++ bodyString rest

/-- `ErrorResponse{Error: msg}` marshalled: the object `\x7b"error": msg\x7d`
(generichandler.go lines 12-14, the `json:"error"` tag). -/
def errorResponseJSON (msg : String) : JValue := .obj (.cons "error" (.str msg) .nil)

/-- `writeErrorJSON` (generichandler.go lines 120-123): `WriteHeader(400)` then
encode `ErrorResponse{Error: err.Error()}` onto the response. -/
def writeErrorJSON (w : ResponseWriter) (err : GoError) : ResponseWriter :=
  (w.writeHeader 400).write (errorResponseJSON err.msg)

/-- `HTTPDecoder[RequestType] = func(*http.Request) (*RequestType, error)`
(generichandler.go line 24), returning the Go pair of pointer and error. -/
abbrev HTTPDecoder (ReqT : Type) := HTTPRequest → Option ReqT × Option GoError

/-- `HTTPEncoder[ResponseType] = func(http.ResponseWriter, *ResponseType) error`
(generichandler.go line 27); the writer state it leaves behind is returned
alongside the error. -/
abbrev HTTPEncoder (ResT : Type) := ResponseWriter → Option ResT → ResponseWriter × Option GoError

/-- `APIEndpoint[RequestType, ResponseType] = func(context.Context, *RequestType)
(*ResponseType, error)` (generichandler.go line 16). -/
abbrev APIEndpoint (ReqT ResT : Type) := Ctx → Option ReqT → Option ResT × Option GoError

/-- The outcome of calling `req.Validate(ctx)` through the `Validatable`
interface value: success, a returned error, or a crash — the nil-pointer
dereference panic a value-receiver method makes when the pointer inside the
interface is nil. -/
inductive ValidateOutcome
  | ok
  | fail (e : GoError)
  | crash

/-- Whether the Go type `*RequestType` implements `Validatable`
(generichandler.go lines 115-117), and if so what calling `Validate` does on a
given (possibly nil) pointer. `none` models a request type with no `Validate`
method, for which the type assertion `any(requestData).(Validatable)` fails. -/
abbrev ValidatorCap (ReqT : Type) := Option (Option ReqT → Ctx → ValidateOutcome)

/-- What one run of the produced handler did: the final writer, the list of
`(ctx, requestData)` arguments the endpoint was invoked with, and whether the
run panicked inside a Validate call. -/
structure HandlerResult (ReqT : Type) where
  w : ResponseWriter
  endpointCalls : List (Ctx × Option ReqT)
  crashed : Bool

/-- The tail of the handler body, generichandler.go lines 91-100: invoke the
endpoint; on error write the error JSON and return; otherwise run the encoder
and on encoder error write the error JSON. -/
def handlerTail {ReqT ResT : Type} (endpoint : APIEndpoint ReqT ResT)
    (encoder : HTTPEncoder ResT) (ctx : Ctx) (requestData : Option ReqT)
    (w : ResponseWriter) : HandlerResult ReqT :=
  match endpoint ctx requestData with
  | (_, some err) =>
    { w := writeErrorJSON w err, endpointCalls := [(ctx, requestData)], crashed := false }
  | (responseData, none) =>
    match encoder w responseData with
    | (w2, some err) =>
      { w := writeErrorJSON w2 err, endpointCalls := [(ctx, requestData)], crashed := false }
    | (w2, none) =>
      { w := w2, endpointCalls := [(ctx, requestData)], crashed := false }

/-- `ToHandlerFunc` from src/generichandler.go lines 60-103, translated
branch-for-branch. It is curried: the returned function takes a second
endpoint argument `a` which the inner closure never uses (line 91 calls the
outer `endpoint`). In the body-present branch the decoder runs; on decode
error the code writes `WriteHeader(400)` and the error JSON but does not
return, so control falls through into the `Validatable` check (performed on
whatever pointer the decoder returned) and, absent a validation
short-circuit, into the endpoint call. The body-absent branch sets
`requestData = nil` and proceeds straight to the endpoint. The `Validatable`
capability of `*RequestType` is the `vcap` parameter, a fact about the
instantiating type. -/
def ToHandlerFunc {ReqT ResT : Type} (vcap : ValidatorCap ReqT)
    (decoder : HTTPDecoder ReqT) (endpoint : APIEndpoint ReqT ResT)
    (encoder : HTTPEncoder ResT) :
    APIEndpoint ReqT ResT → HTTPRequest → ResponseWriter → HandlerResult ReqT :=
  fun _a r w =>
    let ctx := r.ctx
    match r.body with
    | some _ =>
      match decoder r with
      | (requestData, derr) =>
        let w1 := match derr with
          | some err => writeErrorJSON (w.writeHeader 400) err
          | none => w
        match vcap with
        | some validate =>
          match validate requestData ctx with
          | .crash => { w := w1, endpointCalls := [], crashed := true }
          | .fail err =>
            { w := writeErrorJSON (w1.writeHeader 400) err, endpointCalls := [], crashed := false }
          | .ok => handlerTail endpoint encoder ctx requestData w1
        | none => handlerTail endpoint encoder ctx requestData w1
    | none => handlerTail endpoint encoder ctx none w

/-- `DefaultHTTPDecoder` (generichandler.go lines 30-43): nil body yields the
nil pointer and no error; otherwise unmarshal the body into a fresh
`RequestType` value, failing on malformed bytes or a mismatched shape. The
unmarshalling Go derives from the type by reflection is the `um` parameter. -/
def DefaultHTTPDecoder {ReqT : Type} (um : JValue → Except GoError ReqT) : HTTPDecoder ReqT :=
  fun r =>
    match r.body with
    | none => (none, none)
    | some (.malformed e) => (none, some e)
    | some (.json j) =>
      match um j with
      | .ok v => (some v, none)
      | .error e => (none, some e)

/-- `DefaultHTTPEncoder` (generichandler.go lines 45-50): encode non-nil data
as one JSON chunk, write nothing for nil. The marshalling Go derives from the
type is the `m` parameter. -/
def DefaultHTTPEncoder {ResT : Type} (m : ResT → JValue) : HTTPEncoder ResT :=
  fun w data =>
    match data with
    | some d => (w.write (m d), none)
    | none => (w, none)

/-- `DefaultJSONHandlerFunc` (generichandler.go lines 107-109): the curried
`ToHandlerFunc` applied to the default codec pair and to `endpoint` twice. -/
def DefaultJSONHandlerFunc {ReqT ResT : Type} (vcap : ValidatorCap ReqT)
    (um : JValue → Except GoError ReqT) (m : ResT → JValue)
    (endpoint : APIEndpoint ReqT ResT) :
    HTTPRequest → ResponseWriter → HandlerResult ReqT :=
  ToHandlerFunc vcap (DefaultHTTPDecoder um) endpoint (DefaultHTTPEncoder m) endpoint

/-- The `pet` type of genericservice_test.go: `Name`, `Owner`, `Age` are
exported struct fields; `addedAt time.Time` is unexported (lowercase), so Go
encoding/json neither writes nor reads it. `time.Time` is modelled as `Nat`
(0 is the zero value). -/
structure pet where
  Name : String
  Owner : String
  Age : Nat
  addedAt : Nat
deriving DecidableEq

/-- Models `json.Marshal` applied to `pet` via reflection: the exported fields
in declaration order, under their field names (no tags); the unexported
`addedAt` is omitted. -/
def marshalPet (p : pet) : JValue :=
  .obj (.cons "Name" (.str p.Name) (.cons "Owner" (.str p.Owner) (.cons "Age" (.num p.Age) .nil)))

/-- Reading one string field during unmarshal into `pet`: an absent key leaves
the fresh value's zero string, a present key must hold a JSON string. -/
def unmarshalStringField (fs : JFields) (key : String) : Except GoError String :=
  match fs.lookupLast key with
  | none => .ok ""
  | some (.str s) => .ok s
  | some _ => .error { msg := "json: cannot unmarshal value into Go struct field pet." ++ key }

/-- Reading one natural-number field during unmarshal into `pet`. -/
def unmarshalNatField (fs : JFields) (key : String) : Except GoError Nat :=
  match fs.lookupLast key with
  | none => .ok 0
  | some (.num n) => .ok n
  | some _ => .error { msg := "json: cannot unmarshal value into Go struct field pet." ++ key }

/-- Models `json.Unmarshal` into a fresh `pet` (what `DefaultHTTPDecoder`'s
`json.NewDecoder(request.Body).Decode(new(pet))` does): the top-level value
must be an object; exported fields are populated from their keys (absent key
leaves the zero value); the unexported `addedAt` is never populated and stays
at its zero value. -/
def unmarshalPet (j : JValue) : Except GoError pet :=
  match j with
  | .obj fs => do
    let name ← unmarshalStringField fs "Name"
    let owner ← unmarshalStringField fs "Owner"
    let age ← unmarshalNatField fs "Age"
    .ok { Name := name, Owner := owner, Age := age, addedAt := 0 }
  | _ => .error { msg := "json: cannot unmarshal value into Go value of type pet" }

/-- The default JSON codec round trip on a `pet` response value: encode it with
`DefaultHTTPEncoder` onto a fresh writer, present the produced chunk as a
request body, and decode it with `DefaultHTTPDecoder`. -/
def roundTripPet (p : pet) : Option pet × Option GoError :=
  match DefaultHTTPEncoder marshalPet ResponseWriter.empty (some p) with
  | (w, _) =>
    match w.chunks with
    | [j] => DefaultHTTPDecoder unmarshalPet { body := some (.json j), ctx := 0 }
    | _ => (none, none)

/-- `pet.Validate` from genericservice_test.go lines 332-344: the value-receiver
method returning `errors.WithMessage(ErrorInvalidRequest, ...)` for a missing
name, owner, or age. -/
def petValidate (p : pet) (_ctx : Ctx) : Option GoError :=
  if p.Name.length = 0 then some (ErrorInvalidRequest.withMessage "the pet must have a name")
  else if p.Owner.length = 0 then some (ErrorInvalidRequest.withMessage "the pet must have an owner")
  else if p.Age = 0 then some (ErrorInvalidRequest.withMessage "the pet must be at least 1 year old")
  else none

/-- Calling `Validate` through a `Validatable` interface holding a `*pet`: the
value-receiver method dereferences the pointer, so a nil pointer crashes; a
non-nil pointer runs `petValidate` on the pointed-to value. -/
def petValidateCall : Option pet → Ctx → ValidateOutcome :=
  fun p ctx =>
    match p with
    | none => .crash
    | some v =>
      match petValidate v ctx with
      | some e => .fail e
      | none => .ok

/-- Go method-set semantics for `pet`: `Validate` has a value receiver, so
`*pet` implements `Validatable` and the type assertion succeeds even when the
pointer is nil. -/
def petValidatorCap : ValidatorCap pet := some petValidateCall

/-- A request whose body is present but malformed, so that decoding fails; the
decode error carries the message "unexpected EOF". -/
def malformedReq : HTTPRequest := { body := some (.malformed { msg := "unexpected EOF" }), ctx := 7 }

/-- A request with no body (`r.Body == nil` in the source's check). -/
def noBodyReq : HTTPRequest := { body := none, ctx := 0 }

/-- Unmarshalling for `RequestType = struct\x7b\x7d` (modelled as `Unit`): any JSON
value decodes to the empty struct. -/
def unmarshalUnit : JValue → Except GoError Unit := fun _ => .ok ()

/-- Marshalling for `ResponseType = struct\x7b\x7d`: the empty object. -/
def marshalUnit : Unit → JValue := fun _ => .obj .nil

/-- A successful endpoint over the empty request/response structs, used to
instantiate the adapter; the claims under test concern the adapter, not the
endpoint body. -/
def unitEndpoint : APIEndpoint Unit Unit := fun _ _ => (some (), none)

/-- An endpoint that fails with the package's not-found sentinel. -/
def notFoundEndpoint : APIEndpoint Unit Unit := fun _ _ => (none, some ErrorNotFound)

/-- An endpoint that fails with an error wrapping no package sentinel
(unclassified). -/
def unclassifiedEndpoint : APIEndpoint Unit Unit := fun _ _ => (none, some { msg := "database down" })

/-- An endpoint over `pet` that echoes its request value; a stand-in for
`petAPI.addPet` in theorems whose conclusion does not depend on the endpoint
body. -/
def petEchoEndpoint : APIEndpoint pet pet := fun _ p => (p, none)

/-- The JSON body of spec scenario 2: a pet with no name. -/
def noNameBody : JValue := .obj (.cons "Owner" (.str "jeff") (.cons "Age" (.num 3) .nil))

/-- One run of the default-codec handler over a non-`Validatable` request type
on the malformed-body request, with a succeeding endpoint. -/
def runDecodeFailPlain : HandlerResult Unit :=
  ToHandlerFunc none (DefaultHTTPDecoder unmarshalUnit) unitEndpoint
    (DefaultHTTPEncoder marshalUnit) unitEndpoint malformedReq ResponseWriter.empty

/-- One run on a clean no-body request whose endpoint fails with the
not-found sentinel. -/
def runNotFound : HandlerResult Unit :=
  ToHandlerFunc none (DefaultHTTPDecoder unmarshalUnit) notFoundEndpoint
    (DefaultHTTPEncoder marshalUnit) notFoundEndpoint noBodyReq ResponseWriter.empty

/-- One run on a clean no-body request whose endpoint fails with an
unclassified error. -/
def runUnclassified : HandlerResult Unit :=
  ToHandlerFunc none (DefaultHTTPDecoder unmarshalUnit) unclassifiedEndpoint
    (DefaultHTTPEncoder marshalUnit) unclassifiedEndpoint noBodyReq ResponseWriter.empty

/-- One run on the malformed-body request whose endpoint also fails. -/
def runDecodeFailThenEndpointFail : HandlerResult Unit :=
  ToHandlerFunc none (DefaultHTTPDecoder unmarshalUnit) unclassifiedEndpoint
    (DefaultHTTPEncoder marshalUnit) unclassifiedEndpoint malformedReq ResponseWriter.empty

/-- One run of the default handler instantiated at `RequestType = pet` (whose
`*pet` implements `Validatable` through a value receiver) on the
malformed-body request. -/
def runDecodeFailValidatable : HandlerResult pet :=
  ToHandlerFunc petValidatorCap (DefaultHTTPDecoder unmarshalPet) petEchoEndpoint
    (DefaultHTTPEncoder marshalPet) petEchoEndpoint malformedReq ResponseWriter.empty

/-- The same malformed-body request run at a request type with no `Validate`
method but a `pet`-shaped endpoint. -/
def runDecodeFailNotValidatable : HandlerResult pet :=
  ToHandlerFunc none (DefaultHTTPDecoder unmarshalPet) petEchoEndpoint
    (DefaultHTTPEncoder marshalPet) petEchoEndpoint malformedReq ResponseWriter.empty

theorem jsonEscapeChar_safe {c : Char} (h : jsonSafeChar c = true) :
    jsonEscapeChar c = String.singleton c := by
  simp only [jsonSafeChar, Bool.and_eq_true, Bool.not_eq_true', decide_eq_true_eq,
    decide_eq_false_iff_not] at h
  obtain ⟨⟨⟨⟨⟨⟨⟨h1, h2⟩, h3⟩, h4⟩, h5⟩, h6⟩, h7⟩, h8⟩ := h
  have hn : ¬(c = '\n') := by rintro rfl; simp at h1
  have hr : ¬(c = '\r') := by rintro rfl; simp at h1
  have ht : ¬(c = '\t') := by rintro rfl; simp at h1
  have hlt : ¬(c.toNat < 32) := by omega
  simp only [jsonEscapeChar, if_neg h2, if_neg h3, if_neg hn, if_neg hr, if_neg ht,
    if_neg h4, if_neg h5, if_neg h6, if_neg h7, if_neg h8, if_neg hlt]

theorem escapeList_safe {l : List Char} (h : ∀ c ∈ l, jsonSafeChar c = true) :
    escapeList l = String.mk l := by
  induction l with
  | nil => rfl
  | cons c cs ih =>
    have hc := h c (List.mem_cons_self c cs)
    have hcs := fun x hx => h x (List.mem_cons_of_mem c hx)
    simp only [escapeList, jsonEscapeChar_safe hc, ih hcs]
    apply String.ext
    simp [String.data_append]

theorem jsonQuote_safe {s : String} (h : ∀ c ∈ s.data, jsonSafeChar c = true) :
    jsonQuote s = "\"" ++ s ++ "\"" := by
  obtain ⟨l⟩ := s
  simp only [jsonQuote, escapeList_safe h]

theorem bodyString_append (l : List JValue) (j : JValue) :
    bodyString (l ++ [j]) = bodyString l ++ (renderJValue j ++ "\n") := by
  induction l with
  | nil =>
    simp only [List.nil_append, bodyString]
    apply String.ext; simp [String.data_append]
  | cons x xs ih =>
    show bodyString (x :: (xs ++ [j])) = _
    rw [bodyString, ih, bodyString]
    apply String.ext
    simp [String.data_append]

theorem writeHeader_chunks (w : ResponseWriter) (code : Nat) :
    (w.writeHeader code).chunks = w.chunks := by
  unfold ResponseWriter.writeHeader
  cases w.status <;> rfl

theorem writeErrorJSON_chunks (w : ResponseWriter) (e : GoError) :
    (writeErrorJSON w e).chunks = w.chunks ++ [errorResponseJSON e.msg] := by
  unfold writeErrorJSON ResponseWriter.write
  simp only [writeHeader_chunks]

theorem render_errorResponseJSON {m : String} (h : ∀ c ∈ m.data, jsonSafeChar c = true) :
    renderJValue (errorResponseJSON m) ++ "\n" = "\x7b\"error\":\"" ++ m ++ "\"\x7d\n" := by
  have he : jsonQuote "error" = "\"error\"" := by decide
  simp only [errorResponseJSON, renderJValue, renderFields, jsonQuote_safe h, he]
  apply String.ext
  simp [String.data_append]

theorem handlerTail_endpointCalls {ReqT ResT : Type} (e : APIEndpoint ReqT ResT)
    (enc : HTTPEncoder ResT) (ctx : Ctx) (req : Option ReqT) (w : ResponseWriter) :
    (handlerTail e enc ctx req w).endpointCalls = [(ctx, req)] := by
  unfold handlerTail
  split
  · rfl
  · split <;> rfl

/-- Claim C1 (code_bug evidence): on a request whose body is present but fails
to decode, the handler does set status 400 and write the decode-error body,
but — the decode-failure branch of `ToHandlerFunc` having no return — it then
still invokes the endpoint (with the nil request pointer) and appends the
endpoint's encoded response after the error object, contradicting the claim
that the endpoint is not invoked and that the body is exactly the error
object. -/
theorem decode_failure_still_invokes_endpoint :
    runDecodeFailPlain.w.status = some 400 ∧
    runDecodeFailPlain.endpointCalls = [(7, none)] ∧
    runDecodeFailPlain.w.chunks = [errorResponseJSON "unexpected EOF", .obj .nil] :=
  ⟨rfl, rfl, rfl⟩

/-- Claim C2 (code_bug evidence): every endpoint error is answered with status
400 by `writeErrorJSON` — the not-found sentinel does not produce 404 and an
unclassified error does not produce a default/internal status; only the
error-payload half of the claim holds on the code. -/
theorem endpoint_error_status_ignores_classification :
    runNotFound.w.status = some 400 ∧
    runNotFound.w.chunks = [errorResponseJSON "no data found"] ∧
    runUnclassified.w.status = some 400 ∧
    runUnclassified.w.chunks = [errorResponseJSON "database down"] :=
  ⟨rfl, rfl, rfl, rfl⟩

/-- Claim C3 (code_bug evidence): the decode-failure path does not return after
writing the error: on a request whose body fails to decode and whose endpoint
then also fails, the endpoint is invoked after the first error write and a
second error body is appended, so the error body is not written exactly once
and the handler does not return immediately. -/
theorem decode_failure_falls_through_and_double_writes :
    runDecodeFailThenEndpointFail.w.chunks =
      [errorResponseJSON "unexpected EOF", errorResponseJSON "database down"] ∧
    runDecodeFailThenEndpointFail.endpointCalls = [(7, none)] :=
  ⟨rfl, rfl⟩

/-- Claim C4: on a request with no body the handler skips decoding (its result
does not depend on the decoder), proceeds directly to the endpoint-and-encoder
tail with the absent (nil) request value, and invokes the endpoint exactly
once with that absent value and the request context — the absent body is not
treated as a decode error. -/
theorem absent_body_skips_decode_and_invokes_endpoint {ReqT ResT : Type}
    (vcap : ValidatorCap ReqT) (d d2 : HTTPDecoder ReqT) (e : APIEndpoint ReqT ResT)
    (enc : HTTPEncoder ResT) (a : APIEndpoint ReqT ResT) (r : HTTPRequest)
    (w : ResponseWriter) (h : r.body = none) :
    ToHandlerFunc vcap d e enc a r w = handlerTail e enc r.ctx none w ∧
    ToHandlerFunc vcap d e enc a r w = ToHandlerFunc vcap d2 e enc a r w ∧
    (ToHandlerFunc vcap d e enc a r w).endpointCalls = [(r.ctx, none)] := by
  have h1 : ∀ dd : HTTPDecoder ReqT,
      ToHandlerFunc vcap dd e enc a r w = handlerTail e enc r.ctx none w := by
    intro dd
    simp only [ToHandlerFunc, h]
  refine ⟨h1 d, (h1 d).trans (h1 d2).symm, ?_⟩
  rw [h1 d]
  exact handlerTail_endpointCalls e enc r.ctx none w

/-- Witness for C4: the no-body request over the default unit codec invokes the
endpoint once with the nil request value and context 0. -/
theorem absent_body_witness :
    noBodyReq.body = none ∧
    (ToHandlerFunc none (DefaultHTTPDecoder unmarshalUnit) unitEndpoint
      (DefaultHTTPEncoder marshalUnit) unitEndpoint noBodyReq
      ResponseWriter.empty).endpointCalls = [(0, none)] :=
  ⟨rfl, (absent_body_skips_decode_and_invokes_endpoint none (DefaultHTTPDecoder unmarshalUnit)
    (DefaultHTTPDecoder unmarshalUnit) unitEndpoint (DefaultHTTPEncoder marshalUnit)
    unitEndpoint noBodyReq ResponseWriter.empty rfl).2.2⟩

/-- Claim C5: when the body decodes cleanly, the request type exposes the
Validator capability, and the Validate call fails, the handler answers with
status 400 and exactly the error payload, and the endpoint is never
invoked. -/
theorem validation_failure_short_circuits {ReqT ResT : Type}
    (vf : Option ReqT → Ctx → ValidateOutcome) (d : HTTPDecoder ReqT)
    (e : APIEndpoint ReqT ResT) (enc : HTTPEncoder ResT) (a : APIEndpoint ReqT ResT)
    (r : HTTPRequest) (rb : RawBody) (v : ReqT) (err : GoError)
    (hb : r.body = some rb) (hd : d r = (some v, none)) (hv : vf (some v) r.ctx = .fail err) :
    ToHandlerFunc (some vf) d e enc a r ResponseWriter.empty =
      { w := { status := some 400, chunks := [errorResponseJSON err.msg] },
        endpointCalls := [], crashed := false } := by
  simp only [ToHandlerFunc, hb, hd, hv]
  rfl

/-- Witness for C5: spec scenario 2 — a pet body with no name decodes, fails
validation with "the pet must have a name: invalid request", and the handler
answers 400 with that payload without invoking the endpoint. -/
theorem validation_failure_witness :
    ToHandlerFunc (some petValidateCall) (DefaultHTTPDecoder unmarshalPet) petEchoEndpoint
      (DefaultHTTPEncoder marshalPet) petEchoEndpoint
      { body := some (.json noNameBody), ctx := 0 } ResponseWriter.empty =
      { w := { status := some 400,
               chunks := [errorResponseJSON "the pet must have a name: invalid request"] },
        endpointCalls := [], crashed := false } :=
  validation_failure_short_circuits petValidateCall (DefaultHTTPDecoder unmarshalPet)
    petEchoEndpoint (DefaultHTTPEncoder marshalPet) petEchoEndpoint
    { body := some (.json noNameBody), ctx := 0 } (.json noNameBody)
    { Name := "", Owner := "jeff", Age := 3, addedAt := 0 }
    (ErrorInvalidRequest.withMessage "the pet must have a name")
    rfl rfl rfl

/-- Claim C6: a request type with no Validator capability is never rejected for
lack of a validation method — after a clean decode the handler proceeds
directly to the endpoint-and-encoder tail and invokes the endpoint once with
the decoded value. -/
theorem missing_validator_capability_skips_validation {ReqT ResT : Type}
    (d : HTTPDecoder ReqT) (e : APIEndpoint ReqT ResT) (enc : HTTPEncoder ResT)
    (a : APIEndpoint ReqT ResT) (r : HTTPRequest) (w : ResponseWriter)
    (rb : RawBody) (v : ReqT)
    (hb : r.body = some rb) (hd : d r = (some v, none)) :
    ToHandlerFunc none d e enc a r w = handlerTail e enc r.ctx (some v) w ∧
    (ToHandlerFunc none d e enc a r w).endpointCalls = [(r.ctx, some v)] := by
  have h1 : ToHandlerFunc none d e enc a r w = handlerTail e enc r.ctx (some v) w := by
    simp only [ToHandlerFunc, hb, hd]
  refine ⟨h1, ?_⟩
  rw [h1]
  exact handlerTail_endpointCalls e enc r.ctx (some v) w

/-- Witness for C6: a unit-typed request (no Validate method) with a wellformed
body flows through to the endpoint. -/
theorem missing_validator_witness :
    (ToHandlerFunc none (DefaultHTTPDecoder unmarshalUnit) unitEndpoint
      (DefaultHTTPEncoder marshalUnit) unitEndpoint
      { body := some (.json (.obj .nil)), ctx := 3 } ResponseWriter.empty).endpointCalls =
      [(3, some ())] :=
  (missing_validator_capability_skips_validation (DefaultHTTPDecoder unmarshalUnit)
    unitEndpoint (DefaultHTTPEncoder marshalUnit) unitEndpoint
    { body := some (.json (.obj .nil)), ctx := 3 } ResponseWriter.empty
    (.json (.obj .nil)) () rfl rfl).2

/-- Claim C7: every error write appends exactly the JSON object
`\x7b"error": message\x7d` (plus the encoder's newline), with the error's
message carried verbatim in the `error` field; for a message of JSON-safe
characters the body bytes embed the message text unchanged. -/
theorem error_payload_is_error_object_with_verbatim_message
    (w : ResponseWriter) (e : GoError) (h : ∀ c ∈ e.msg.data, jsonSafeChar c = true) :
    (writeErrorJSON w e).chunks = w.chunks ++ [errorResponseJSON e.msg] ∧
    bodyString (writeErrorJSON w e).chunks =
      bodyString w.chunks ++ ("\x7b\"error\":\"" ++ e.msg ++ "\"\x7d\n") := by
  refine ⟨writeErrorJSON_chunks w e, ?_⟩
  rw [writeErrorJSON_chunks, bodyString_append, render_errorResponseJSON h]

/-- Witness for C7: writing the not-found sentinel onto a fresh writer yields
the body bytes `\x7b"error":"no data found"\x7d` and the message appears
verbatim. -/
theorem error_payload_witness :
    (∀ c ∈ ("no data found" : String).data, jsonSafeChar c = true) ∧
    bodyString (writeErrorJSON ResponseWriter.empty ErrorNotFound).chunks =
      bodyString ResponseWriter.empty.chunks ++
        ("\x7b\"error\":\"" ++ "no data found" ++ "\"\x7d\n") :=
  ⟨by decide,
    (error_payload_is_error_object_with_verbatim_message ResponseWriter.empty ErrorNotFound
      (by decide)).2⟩

/-- Claim C8 counterexample: the default JSON codec round trip is not the
identity on the repository's own response type — `pet`'s unexported `addedAt`
field is dropped by encoding, so a pet carrying a nonzero timestamp does not
come back equal to the original. -/
theorem default_codec_roundtrip_counterexample :
    roundTripPet { Name := "fido", Owner := "jeff", Age := 3, addedAt := 1 } ≠
      (some { Name := "fido", Owner := "jeff", Age := 3, addedAt := 1 }, none) := by
  decide

/-- Claim C8 (amended): encoding a `pet` with the default JSON encoder and
decoding the produced value with the default JSON decoder succeeds and
restores every exported (JSON-serialized) field, leaving the unexported
`addedAt` at its zero value; the round trip is the identity exactly on values
whose unexported fields are zero. -/
theorem default_codec_roundtrip_on_exported_fields (p : pet) :
    roundTripPet p = (some { p with addedAt := 0 }, none) := by
  cases p
  rfl

/-- Claim C9: the endpoint argument of the function returned by the curried
`ToHandlerFunc` is ignored — the produced handler behaves identically for any
two such arguments, and it is the `endpoint` captured by the outer call that
the pipeline tail invokes. -/
theorem curried_endpoint_argument_ignored {ReqT ResT : Type} (vcap : ValidatorCap ReqT)
    (d : HTTPDecoder ReqT) (e1 : APIEndpoint ReqT ResT) (enc : HTTPEncoder ResT)
    (e2 e2' : APIEndpoint ReqT ResT) (r : HTTPRequest) (w : ResponseWriter) :
    ToHandlerFunc vcap d e1 enc e2 r w = ToHandlerFunc vcap d e1 enc e2' r w ∧
    (r.body = none → ToHandlerFunc vcap d e1 enc e2 r w = handlerTail e1 enc r.ctx none w) :=
  ⟨rfl, fun h => by simp only [ToHandlerFunc, h]⟩

/-- Witness for C9: feeding two different second endpoints produces the same
run, and on the no-body request the tail runs the first endpoint. -/
theorem curried_endpoint_argument_witness :
    ToHandlerFunc none (DefaultHTTPDecoder unmarshalUnit) unitEndpoint
        (DefaultHTTPEncoder marshalUnit) notFoundEndpoint noBodyReq ResponseWriter.empty =
      ToHandlerFunc none (DefaultHTTPDecoder unmarshalUnit) unitEndpoint
        (DefaultHTTPEncoder marshalUnit) unclassifiedEndpoint noBodyReq ResponseWriter.empty ∧
    ToHandlerFunc none (DefaultHTTPDecoder unmarshalUnit) unitEndpoint
        (DefaultHTTPEncoder marshalUnit) notFoundEndpoint noBodyReq ResponseWriter.empty =
      handlerTail unitEndpoint (DefaultHTTPEncoder marshalUnit) noBodyReq.ctx none
        ResponseWriter.empty :=
  ⟨(curried_endpoint_argument_ignored none (DefaultHTTPDecoder unmarshalUnit) unitEndpoint
      (DefaultHTTPEncoder marshalUnit) notFoundEndpoint unclassifiedEndpoint noBodyReq
      ResponseWriter.empty).1,
    (curried_endpoint_argument_ignored none (DefaultHTTPDecoder unmarshalUnit) unitEndpoint
      (DefaultHTTPEncoder marshalUnit) notFoundEndpoint unclassifiedEndpoint noBodyReq
      ResponseWriter.empty).2 rfl⟩

/-- Claim C10: at request type `pet` — whose value-receiver `Validate` puts
`*pet` in the `Validatable` method set — a decode failure writes the 400 error
body, then execution continues into the capability check, which succeeds on
the nil request pointer, and the Validate call dereferences nil: the run
crashes after the error write without reaching the endpoint. At a request
type with no Validate method the same decode failure instead flows on to the
endpoint, which is invoked with the nil request value. -/
theorem decode_failure_nil_validate_crash :
    runDecodeFailValidatable.crashed = true ∧
    runDecodeFailValidatable.w.status = some 400 ∧
    runDecodeFailValidatable.w.chunks = [errorResponseJSON "unexpected EOF"] ∧
    runDecodeFailValidatable.endpointCalls = [] ∧
    runDecodeFailNotValidatable.endpointCalls = [(7, none)] :=
  ⟨rfl, rfl, rfl, rfl, rfl⟩

end GenericHandler
